import Mathlib

/-!
Verification of `crates/acp_thread/src/provider_ui.rs`: the price formatter
`format_price_per_million` and the three render components
(`GenericProviderListItem`, `ProviderSelectorHeader`, `ProviderSelectorLoading`).

Floating-point prices are modelled as exact rationals.  Rust's fixed-precision
formatting `format!("{:.n}", x)` prints the sign, then the decimal digits of
`x` rounded to `n` fractional digits, rounding to nearest with ties to even;
`fmtFixed` below implements exactly that on `ℚ`.
-/

/-- Round a rational to the nearest integer, ties to even: the rounding
performed by Rust's fixed-precision float formatting. -/
def roundHalfEven (q : ℚ) : ℤ :=
  if q - (⌊q⌋ : ℚ) < 1/2 then ⌊q⌋
  else if 1/2 < q - (⌊q⌋ : ℚ) then ⌊q⌋ + 1
  else if ⌊q⌋ % 2 = 0 then ⌊q⌋ else ⌊q⌋ + 1

/-- Big-endian decimal digit characters of a natural number; the first
argument is recursion fuel (any fuel `≥ n` gives the digits of `n`). -/
def natDigitsGo : ℕ → ℕ → List Char
  | _, 0 => []
  | 0, _ + 1 => []
  | fuel + 1, n + 1 =>
    natDigitsGo fuel ((n + 1) / 10) ++ [Nat.digitChar ((n + 1) % 10)]

/-- Big-endian decimal digit characters of a natural number (`0 ↦ "0"`). -/
def natDigitChars (m : ℕ) : List Char :=
  if m = 0 then ['0'] else natDigitsGo m m

/-- Left-pad a digit list with `'0'` up to length `n`. -/
def padZeros (n : ℕ) (l : List Char) : List Char :=
  List.replicate (n - l.length) '0' ++ l

/-- Exact-rational model of Rust `format!("{:.prec$}", x)`: sign, then the
integer digits, then (when `prec ≠ 0`) a dot and exactly `prec` fractional
digits of `|x|` rounded to `prec` decimal places, ties to even. -/
def fmtFixed (q : ℚ) (prec : ℕ) : String :=
  let m : ℕ := (roundHalfEven ((if q < 0 then -q else q) * 10 ^ prec)).toNat
  ⟨(if q < 0 then ['-'] else []) ++ natDigitChars (m / 10 ^ prec)
      ++ (if prec = 0 then [] else '.' :: padZeros prec (natDigitChars (m % 10 ^ prec)))⟩

/-- `fn format_price_per_million(price_per_million: f64) -> String` from
`provider_ui.rs`: 4 decimal places below `0.01`, 2 below `1.0`, else 1. -/
def format_price_per_million (price_per_million : ℚ) : String :=
  if price_per_million < 0.01 then fmtFixed price_per_million 4
  else if price_per_million < 1.0 then fmtFixed price_per_million 2
  else fmtFixed price_per_million 1

/-- The characters strictly after the first `'.'`, if any. -/
def afterDot : List Char → Option (List Char)
  | [] => none
  | c :: cs => if c = '.' then some cs else afterDot cs

/-- Number of characters after the decimal point of a rendered string. -/
def digitsAfterPoint (s : String) : Option ℕ :=
  (afterDot s.data).map List.length

/-- Value of a big-endian decimal digit string. -/
def parseNatChars (l : List Char) : ℕ :=
  l.foldl (fun a c => 10 * a + (c.toNat - 48)) 0

/-- Exact value of an unsigned decimal string `⟨int⟩` or `⟨int⟩.⟨frac⟩`. -/
def parseDecCore (l : List Char) : ℚ :=
  (parseNatChars (l.takeWhile (fun c => c ≠ '.')) : ℚ) +
    (parseNatChars ((l.dropWhile (fun c => c ≠ '.')).drop 1) : ℚ) /
      10 ^ ((l.dropWhile (fun c => c ≠ '.')).drop 1).length

/-- Exact value of an optionally `'-'`-signed decimal string: the model of
parsing a formatted price back to a number. -/
def parseDec (s : String) : ℚ :=
  if s.data.head? = some '-' then -(parseDecCore (s.data.drop 1))
  else parseDecCore s.data

/-- Which precision branch of `format_price_per_million` a price falls in. -/
def priceBand (p : ℚ) : ℕ :=
  if p < 0.01 then 0 else if p < 1.0 then 1 else 2

/-! ### Digit-list lemmas -/

theorem digitChar_ne_dot_dash (d : ℕ) (hd : d < 10) :
    Nat.digitChar d ≠ '.' ∧ Nat.digitChar d ≠ '-' := by
  interval_cases d <;> exact ⟨by decide, by decide⟩

theorem natDigitsGo_eq_digits :
    ∀ (f n : ℕ), n ≤ f →
      natDigitsGo f n = ((Nat.digits 10 n).reverse.map Nat.digitChar) := by
  intro f
  induction f with
  | zero =>
    intro n hn
    interval_cases n
    simp [natDigitsGo]
  | succ f ih =>
    intro n hn
    match n with
    | 0 => simp [natDigitsGo]
    | m + 1 =>
      rw [natDigitsGo]
      rw [Nat.digits_def' (by norm_num : (1:ℕ) < 10) (Nat.succ_pos m)]
      rw [List.reverse_cons, List.map_append]
      rw [ih _ (by
        have : (m + 1) / 10 < m + 1 := Nat.div_lt_self (Nat.succ_pos m) (by norm_num)
        omega)]
      simp

theorem natDigitChars_eq_digits (m : ℕ) (hm : m ≠ 0) :
    natDigitChars m = ((Nat.digits 10 m).reverse.map Nat.digitChar) := by
  rw [natDigitChars, if_neg hm, natDigitsGo_eq_digits m m le_rfl]

theorem natDigitChars_mem (m : ℕ) :
    ∀ c ∈ natDigitChars m, c ≠ '.' ∧ c ≠ '-' := by
  intro c hc
  by_cases hm : m = 0
  · subst hm
    simp [natDigitChars] at hc
    subst hc
    exact ⟨by decide, by decide⟩
  · rw [natDigitChars_eq_digits m hm] at hc
    simp only [List.mem_map, List.mem_reverse] at hc
    obtain ⟨d, hd, rfl⟩ := hc
    exact digitChar_ne_dot_dash d (Nat.digits_lt_base (by norm_num) hd)

theorem natDigitChars_ne_nil (m : ℕ) : natDigitChars m ≠ [] := by
  by_cases hm : m = 0
  · subst hm; simp [natDigitChars]
  · rw [natDigitChars_eq_digits m hm]
    simp [Nat.digits_ne_nil_iff_ne_zero.mpr hm]

theorem natDigitChars_length_le (m n : ℕ) (hn : 1 ≤ n) (h : m < 10 ^ n) :
    (natDigitChars m).length ≤ n := by
  by_cases hm : m = 0
  · subst hm; simpa [natDigitChars] using hn
  · rw [natDigitChars_eq_digits m hm]
    rw [List.length_map, List.length_reverse]
    rw [Nat.digits_len 10 m (by norm_num) hm]
    have := Nat.log_lt_of_lt_pow hm h
    omega

theorem padZeros_length (n : ℕ) (l : List Char) (h : l.length ≤ n) :
    (padZeros n l).length = n := by
  simp [padZeros]
  omega

theorem padZeros_mem (n : ℕ) (l : List Char) :
    ∀ c ∈ padZeros n l, c = '0' ∨ c ∈ l := by
  intro c hc
  rcases List.mem_append.1 hc with h | h
  · exact Or.inl (List.eq_of_mem_replicate h)
  · exact Or.inr h

theorem afterDot_append (xs ys : List Char) (h : ∀ c ∈ xs, c ≠ '.') :
    afterDot (xs ++ '.' :: ys) = some ys := by
  induction xs with
  | nil => simp [afterDot]
  | cons x xs ih =>
    have hx : x ≠ '.' := h x (List.mem_cons_self x xs)
    simp only [List.cons_append, afterDot, if_neg hx]
    exact ih (fun c hc => h c (List.mem_cons_of_mem x hc))

/-! ### Round-half-even lemmas -/

theorem roundHalfEven_intCast (k : ℤ) : roundHalfEven (k : ℚ) = k := by
  unfold roundHalfEven
  rw [Int.floor_intCast]
  rw [if_pos]
  norm_num

theorem roundHalfEven_nonneg (q : ℚ) (hq : 0 ≤ q) : 0 ≤ roundHalfEven q := by
  have h0 : 0 ≤ ⌊q⌋ := Int.floor_nonneg.2 hq
  unfold roundHalfEven
  split
  · exact h0
  · split
    · omega
    · split
      · exact h0
      · omega

theorem abs_roundHalfEven_sub_le (q : ℚ) : |(roundHalfEven q : ℚ) - q| ≤ 1/2 := by
  have h0 : (⌊q⌋ : ℚ) ≤ q := Int.floor_le q
  have h1 : q < ⌊q⌋ + 1 := Int.lt_floor_add_one q
  unfold roundHalfEven
  split
  · rw [abs_sub_comm, abs_of_nonneg (by linarith)]
    linarith
  · rename_i hlt
    push_neg at hlt
    split
    · push_cast
      rw [abs_of_nonneg (by linarith)]
      linarith
    · rename_i hgt
      push_neg at hgt
      split
      · rw [abs_sub_comm, abs_of_nonneg (by linarith)]
        linarith
      · push_cast
        rw [abs_of_nonneg (by linarith)]
        linarith

theorem rhe_of_floor_lt (q : ℚ) (f : ℤ) (h1 : ⌊q⌋ = f) (h2 : q - (f : ℚ) < 1/2) :
    roundHalfEven q = f := by
  unfold roundHalfEven
  rw [h1, if_pos h2]

theorem rhe_of_floor_gt (q : ℚ) (f : ℤ) (h1 : ⌊q⌋ = f) (h2 : 1/2 < q - (f : ℚ)) :
    roundHalfEven q = f + 1 := by
  unfold roundHalfEven
  rw [h1, if_neg (by linarith), if_pos h2]

theorem rhe_of_tie_even (q : ℚ) (f : ℤ) (h1 : ⌊q⌋ = f) (h2 : q - (f : ℚ) = 1/2)
    (h3 : f % 2 = 0) : roundHalfEven q = f := by
  unfold roundHalfEven
  rw [h1, if_neg (by rw [h2]; norm_num), if_neg (by rw [h2]; exact lt_irrefl _), if_pos h3]

theorem rhe_of_tie_odd (q : ℚ) (f : ℤ) (h1 : ⌊q⌋ = f) (h2 : q - (f : ℚ) = 1/2)
    (h3 : f % 2 ≠ 0) : roundHalfEven q = f + 1 := by
  unfold roundHalfEven
  rw [h1, if_neg (by rw [h2]; norm_num), if_neg (by rw [h2]; exact lt_irrefl _), if_neg h3]

/-! ### Structure of `fmtFixed` output -/

theorem fmtFixed_data (q : ℚ) (prec : ℕ) :
    (fmtFixed q prec).data =
      (if q < 0 then ['-'] else []) ++
        natDigitChars ((roundHalfEven ((if q < 0 then -q else q) * 10 ^ prec)).toNat / 10 ^ prec)
        ++ (if prec = 0 then []
            else '.' :: padZeros prec (natDigitChars
              ((roundHalfEven ((if q < 0 then -q else q) * 10 ^ prec)).toNat % 10 ^ prec))) := by
  rfl

theorem digitsAfterPoint_fmtFixed (q : ℚ) (prec : ℕ) (hp : prec ≠ 0) :
    digitsAfterPoint (fmtFixed q prec) = some prec := by
  rw [digitsAfterPoint, fmtFixed_data, if_neg hp]
  set m : ℕ := (roundHalfEven ((if q < 0 then -q else q) * 10 ^ prec)).toNat with hm
  rw [afterDot_append]
  · have hlen : (natDigitChars (m % 10 ^ prec)).length ≤ prec := by
      refine natDigitChars_length_le _ _ (by omega) ?_
      exact Nat.mod_lt _ (Nat.pos_pow_of_pos _ (by norm_num))
    simp [padZeros_length _ _ hlen]
  · intro c hc
    rcases List.mem_append.1 hc with h | h
    · split at h
      · simp only [List.mem_singleton] at h
        subst h; decide
      · simp at h
    · exact (natDigitChars_mem _ c h).1

/-! ### Parsing lemmas -/

theorem digitChar_val (d : ℕ) (hd : d < 10) : (Nat.digitChar d).toNat - 48 = d := by
  interval_cases d <;> decide

theorem parseNat_aux (L : List ℕ) (hL : ∀ d ∈ L, d < 10) :
    ∀ a : ℕ, List.foldl (fun a c => 10 * a + (c.toNat - 48)) a
        (L.reverse.map Nat.digitChar) = a * 10 ^ L.length + Nat.ofDigits 10 L := by
  induction L with
  | nil => intro a; simp [Nat.ofDigits_nil]
  | cons d L ih =>
    intro a
    rw [List.reverse_cons, List.map_append, List.foldl_append]
    rw [ih (fun x hx => hL x (List.mem_cons_of_mem d hx)) a]
    simp only [List.map_cons, List.map_nil, List.foldl_cons, List.foldl_nil]
    rw [digitChar_val d (hL d (List.mem_cons_self d L))]
    rw [Nat.ofDigits_cons, List.length_cons]
    ring

theorem parseNatChars_natDigitChars (m : ℕ) :
    parseNatChars (natDigitChars m) = m := by
  by_cases hm : m = 0
  · subst hm; decide
  · rw [natDigitChars_eq_digits m hm, parseNatChars]
    rw [parseNat_aux _ (fun d hd => Nat.digits_lt_base (by norm_num) hd) 0]
    simp [Nat.ofDigits_digits]

theorem foldl_replicate_zero (k : ℕ) :
    List.foldl (fun a c => 10 * a + (c.toNat - 48)) 0 (List.replicate k '0') = 0 := by
  induction k with
  | zero => rfl
  | succ k ih => simpa [List.replicate_succ] using ih

theorem parseNatChars_padZeros (n : ℕ) (l : List Char) :
    parseNatChars (padZeros n l) = parseNatChars l := by
  rw [padZeros, parseNatChars, parseNatChars, List.foldl_append, foldl_replicate_zero]

theorem takeWhile_append_dot (xs ys : List Char) (h : ∀ c ∈ xs, c ≠ '.') :
    (xs ++ '.' :: ys).takeWhile (fun c => c ≠ '.') = xs ∧
    (xs ++ '.' :: ys).dropWhile (fun c => c ≠ '.') = '.' :: ys := by
  induction xs with
  | nil => exact ⟨by simp [List.takeWhile], by simp [List.dropWhile]⟩
  | cons x xs ih =>
    have hx : x ≠ '.' := h x (List.mem_cons_self x xs)
    obtain ⟨h1, h2⟩ := ih (fun c hc => h c (List.mem_cons_of_mem x hc))
    refine ⟨?_, ?_⟩
    · simpa [List.takeWhile_cons, hx] using h1
    · simpa [List.dropWhile_cons, hx] using h2

theorem takeWhile_no_dot (xs : List Char) (h : ∀ c ∈ xs, c ≠ '.') :
    xs.takeWhile (fun c => c ≠ '.') = xs ∧
    xs.dropWhile (fun c => c ≠ '.') = [] := by
  induction xs with
  | nil => exact ⟨rfl, rfl⟩
  | cons x xs ih =>
    have hx : x ≠ '.' := h x (List.mem_cons_self x xs)
    obtain ⟨h1, h2⟩ := ih (fun c hc => h c (List.mem_cons_of_mem x hc))
    refine ⟨?_, ?_⟩
    · simpa [List.takeWhile_cons, hx] using h1
    · simpa [List.dropWhile_cons, hx] using h2

theorem parseDecCore_shape (ip fp : List Char) (h : ∀ c ∈ ip, c ≠ '.') :
    parseDecCore (ip ++ '.' :: fp) =
      (parseNatChars ip : ℚ) + (parseNatChars fp : ℚ) / 10 ^ fp.length := by
  obtain ⟨h1, h2⟩ := takeWhile_append_dot ip fp h
  rw [parseDecCore, h1, h2]
  simp

theorem parseDecCore_no_dot (l : List Char) (h : ∀ c ∈ l, c ≠ '.') :
    parseDecCore l = parseNatChars l := by
  obtain ⟨h1, h2⟩ := takeWhile_no_dot l h
  rw [parseDecCore, h1, h2]
  simp [parseNatChars]

theorem cast_div_add_mod_div (M k : ℕ) (hk : k ≠ 0) :
    ((M / k : ℕ) : ℚ) + ((M % k : ℕ) : ℚ) / (k : ℚ) = (M : ℚ) / (k : ℚ) := by
  have hk0 : (k : ℚ) ≠ 0 := Nat.cast_ne_zero.2 hk
  have h := congrArg (fun x : ℕ => (x : ℚ)) (Nat.div_add_mod M k)
  push_cast at h
  field_simp
  linarith

theorem parseDec_fmtFixed_nonneg (q : ℚ) (hq : 0 ≤ q) (prec : ℕ) (hp : prec ≠ 0) :
    parseDec (fmtFixed q prec) =
      ((roundHalfEven (q * 10 ^ prec)).toNat : ℚ) / 10 ^ prec := by
  have hneg : ¬ q < 0 := not_lt.2 hq
  have hdata : (fmtFixed q prec).data =
      natDigitChars ((roundHalfEven (q * 10 ^ prec)).toNat / 10 ^ prec) ++
        '.' :: padZeros prec (natDigitChars
          ((roundHalfEven (q * 10 ^ prec)).toNat % 10 ^ prec)) := by
    rw [fmtFixed_data, if_neg hneg, if_neg hneg, if_neg hp]
    simp
  set M := (roundHalfEven (q * 10 ^ prec)).toNat with hM
  obtain ⟨c, cs, hcons⟩ := List.exists_cons_of_ne_nil (natDigitChars_ne_nil (M / 10 ^ prec))
  have hcne : c ≠ '-' := by
    have : c ∈ natDigitChars (M / 10 ^ prec) := by rw [hcons]; exact List.mem_cons_self c cs
    exact (natDigitChars_mem _ c this).2
  have hhead : (fmtFixed q prec).data.head? ≠ some '-' := by
    rw [hdata, hcons]
    simpa using hcne
  rw [parseDec, if_neg hhead, hdata]
  rw [parseDecCore_shape _ _ (fun c hc => (natDigitChars_mem _ c hc).1)]
  rw [parseNatChars_natDigitChars, parseNatChars_padZeros, parseNatChars_natDigitChars]
  have hlen : (padZeros prec (natDigitChars (M % 10 ^ prec))).length = prec := by
    refine padZeros_length _ _ (natDigitChars_length_le _ _ (by omega) ?_)
    exact Nat.mod_lt _ (Nat.pos_pow_of_pos _ (by norm_num))
  rw [hlen]
  have h10 : (10 : ℚ) ^ prec = ((10 ^ prec : ℕ) : ℚ) := by push_cast; ring
  rw [h10]
  exact cast_div_add_mod_div M (10 ^ prec) (by positivity)

theorem fmtFixed_reformat (q : ℚ) (hq : 0 ≤ q) (prec : ℕ) :
    fmtFixed (((roundHalfEven (q * 10 ^ prec)).toNat : ℚ) / 10 ^ prec) prec =
      fmtFixed q prec := by
  set M := (roundHalfEven (q * 10 ^ prec)).toNat with hM
  have hq' : (0:ℚ) ≤ (M : ℚ) / 10 ^ prec := by positivity
  have hneg : ¬ q < 0 := not_lt.2 hq
  have hneg' : ¬ (M : ℚ) / 10 ^ prec < 0 := not_lt.2 hq'
  have harg : ((M : ℚ) / 10 ^ prec) * 10 ^ prec = ((M : ℤ) : ℚ) := by
    have : (10:ℚ) ^ prec ≠ 0 := by positivity
    field_simp
  unfold fmtFixed
  rw [if_neg hneg, if_neg hneg', if_neg hneg, if_neg hneg']
  rw [harg, roundHalfEven_intCast, Int.toNat_natCast]

/-! ### Concrete-evaluation helper -/

theorem fmtFixed_eval_nonneg (q : ℚ) (prec M : ℕ) (hq : ¬ q < 0)
    (h : roundHalfEven (q * 10 ^ prec) = (M : ℤ)) :
    fmtFixed q prec =
      ⟨natDigitChars (M / 10 ^ prec) ++
        (if prec = 0 then []
         else '.' :: padZeros prec (natDigitChars (M % 10 ^ prec)))⟩ := by
  simp only [fmtFixed, if_neg hq, h, Int.toNat_natCast, List.nil_append]

theorem fmtFixed_eval_neg (q : ℚ) (prec M : ℕ) (hq : q < 0)
    (h : roundHalfEven (-q * 10 ^ prec) = (M : ℤ)) :
    fmtFixed q prec =
      ⟨'-' :: (natDigitChars (M / 10 ^ prec) ++
        (if prec = 0 then []
         else '.' :: padZeros prec (natDigitChars (M % 10 ^ prec))))⟩ := by
  simp only [fmtFixed, if_pos hq, h, Int.toNat_natCast, List.singleton_append,
    List.cons_append, List.nil_append]

/-! ### Band idempotence (the amended form of spec claim C2) -/

theorem format_idem_same_band (p : ℚ) (hp : 0 ≤ p)
    (hb : priceBand (parseDec (format_price_per_million p)) = priceBand p) :
    format_price_per_million (parseDec (format_price_per_million p)) =
      format_price_per_million p := by
  by_cases h1 : p < 0.01
  · have hfmt : format_price_per_million p = fmtFixed p 4 := by
      rw [format_price_per_million, if_pos h1]
    have hparse : parseDec (format_price_per_million p) =
        ((roundHalfEven (p * 10 ^ 4)).toNat : ℚ) / 10 ^ 4 := by
      rw [hfmt]; exact parseDec_fmtFixed_nonneg p hp 4 (by norm_num)
    have hbp : priceBand p = 0 := by rw [priceBand, if_pos h1]
    have hq1 : parseDec (format_price_per_million p) < 0.01 := by
      by_contra hq1
      rw [hbp, priceBand, if_neg hq1] at hb
      split at hb <;> omega
    rw [format_price_per_million, if_pos hq1, hparse, hfmt]
    exact fmtFixed_reformat p hp 4
  · by_cases h2 : p < 1.0
    · have hfmt : format_price_per_million p = fmtFixed p 2 := by
        rw [format_price_per_million, if_neg h1, if_pos h2]
      have hparse : parseDec (format_price_per_million p) =
          ((roundHalfEven (p * 10 ^ 2)).toNat : ℚ) / 10 ^ 2 := by
        rw [hfmt]; exact parseDec_fmtFixed_nonneg p hp 2 (by norm_num)
      have hbp : priceBand p = 1 := by rw [priceBand, if_neg h1, if_pos h2]
      have hq1 : ¬ parseDec (format_price_per_million p) < 0.01 := by
        intro hq1
        rw [hbp, priceBand, if_pos hq1] at hb
        omega
      have hq2 : parseDec (format_price_per_million p) < 1.0 := by
        by_contra hq2
        rw [hbp, priceBand, if_neg hq1, if_neg hq2] at hb
        omega
      rw [format_price_per_million, if_neg hq1, if_pos hq2, hparse, hfmt]
      exact fmtFixed_reformat p hp 2
    · have hfmt : format_price_per_million p = fmtFixed p 1 := by
        rw [format_price_per_million, if_neg h1, if_neg h2]
      have hparse : parseDec (format_price_per_million p) =
          ((roundHalfEven (p * 10 ^ 1)).toNat : ℚ) / 10 ^ 1 := by
        rw [hfmt]; exact parseDec_fmtFixed_nonneg p hp 1 (by norm_num)
      have hbp : priceBand p = 2 := by rw [priceBand, if_neg h1, if_neg h2]
      have hq1 : ¬ parseDec (format_price_per_million p) < 0.01 := by
        intro hq1
        rw [hbp, priceBand, if_pos hq1] at hb
        omega
      have hq2 : ¬ parseDec (format_price_per_million p) < 1.0 := by
        intro hq2
        rw [hbp, priceBand, if_neg hq1, if_pos hq2] at hb
        omega
      rw [format_price_per_million, if_neg hq1, if_neg hq2, hparse, hfmt]
      exact fmtFixed_reformat p hp 1

/-! ### Claims about the price formatter -/

/-- C1: for every non-negative price `p`, `format_price_per_million p` has
exactly 4 digits after the decimal point when `p < 0.01`, exactly 2 when
`0.01 ≤ p < 1.0`, and exactly 1 when `p ≥ 1.0`. -/
theorem price_format_digit_count (p : ℚ) (hp : 0 ≤ p) :
    (p < 0.01 → digitsAfterPoint (format_price_per_million p) = some 4) ∧
    (0.01 ≤ p → p < 1.0 → digitsAfterPoint (format_price_per_million p) = some 2) ∧
    (1.0 ≤ p → digitsAfterPoint (format_price_per_million p) = some 1) := by
  refine ⟨fun h => ?_, fun ha hb => ?_, fun h => ?_⟩
  · rw [format_price_per_million, if_pos h]
    exact digitsAfterPoint_fmtFixed _ _ (by norm_num)
  · rw [format_price_per_million, if_neg (not_lt.2 ha), if_pos hb]
    exact digitsAfterPoint_fmtFixed _ _ (by norm_num)
  · have h1 : ¬ p < 0.01 := not_lt.2 (le_trans (by norm_num) h)
    rw [format_price_per_million, if_neg h1, if_neg (not_lt.2 h)]
    exact digitsAfterPoint_fmtFixed _ _ (by norm_num)

/-- Witness for C1 at concrete prices in each of the three bands. -/
theorem price_format_digit_count_witness :
    digitsAfterPoint (format_price_per_million (1/200)) = some 4 ∧
    digitsAfterPoint (format_price_per_million (1/2)) = some 2 ∧
    digitsAfterPoint (format_price_per_million 2) = some 1 :=
  ⟨(price_format_digit_count (1/200) (by norm_num)).1 (by norm_num),
   (price_format_digit_count (1/2) (by norm_num)).2.1 (by norm_num) (by norm_num),
   (price_format_digit_count 2 (by norm_num)).2.2 (by norm_num)⟩

/-- C2 counterexample: at the non-negative price `p = 0.999` the formatter
produces `"1.00"`, which parses back to `1`, which re-formats as `"1.0"`:
formatting is not idempotent on its displayed value. -/
theorem price_format_not_idempotent :
    (0:ℚ) ≤ 999/1000 ∧
    format_price_per_million (parseDec (format_price_per_million (999/1000))) ≠
      format_price_per_million (999/1000) := by
  have hb1 : ¬ (999/1000 : ℚ) < 0.01 := by norm_num
  have hb2 : (999/1000 : ℚ) < 1.0 := by norm_num
  have hfmt : format_price_per_million (999/1000) = fmtFixed (999/1000) 2 := by
    rw [format_price_per_million, if_neg hb1, if_pos hb2]
  have hfl : (⌊(999/10 : ℚ)⌋ : ℤ) = 99 := by
    rw [Int.floor_eq_iff]
    push_cast
    norm_num
  have hrhe99 : roundHalfEven (999/10 : ℚ) = 100 := by
    rw [rhe_of_floor_gt (999/10 : ℚ) 99 hfl (by push_cast; norm_num)]
    norm_num
  have hrhe : roundHalfEven ((999/1000 : ℚ) * 10 ^ 2) = ((100:ℕ):ℤ) := by
    have harg : (999/1000 : ℚ) * 10 ^ 2 = 999/10 := by norm_num
    rw [harg, hrhe99]
    norm_num
  have hparse : parseDec (format_price_per_million (999/1000)) = 1 := by
    rw [hfmt, parseDec_fmtFixed_nonneg _ (by norm_num) 2 (by norm_num), hrhe,
      Int.toNat_natCast]
    norm_num
  refine ⟨by norm_num, ?_⟩
  rw [hparse, hfmt]
  have hfmt1 : format_price_per_million 1 = fmtFixed 1 1 := by
    rw [format_price_per_million, if_neg (by norm_num), if_neg (by norm_num)]
  rw [hfmt1]
  have h1rhe : roundHalfEven ((1:ℚ) * 10 ^ 1) = ((10:ℕ):ℤ) := by
    have h : (1:ℚ) * 10 ^ 1 = ((10:ℤ):ℚ) := by norm_num
    rw [h, roundHalfEven_intCast]
    norm_num
  rw [fmtFixed_eval_nonneg 1 1 10 (by norm_num) h1rhe,
    fmtFixed_eval_nonneg (999/1000) 2 100 (by norm_num) hrhe]
  decide

/-- C2 (amended): for every non-negative price `p` whose formatted value
parses back into the same precision band, re-formatting the parsed-back
number yields the same string.  (Idempotence can only fail when rounding
pushes the displayed value across a band boundary, as at `p = 0.999`.) -/
theorem price_format_idempotent_within_band (p : ℚ) (hp : 0 ≤ p)
    (hb : priceBand (parseDec (format_price_per_million p)) = priceBand p) :
    format_price_per_million (parseDec (format_price_per_million p)) =
      format_price_per_million p :=
  format_idem_same_band p hp hb

/-- Witness for the amended C2 at `p = 0.005`. -/
theorem price_format_idempotent_within_band_witness :
    format_price_per_million (parseDec (format_price_per_million (1/200))) =
      format_price_per_million (1/200) := by
  have hfmt : format_price_per_million (1/200 : ℚ) = fmtFixed (1/200) 4 := by
    rw [format_price_per_million, if_pos (by norm_num)]
  have hrhe : roundHalfEven ((1/200 : ℚ) * 10 ^ 4) = ((50:ℕ):ℤ) := by
    have harg : (1/200 : ℚ) * 10 ^ 4 = ((50:ℤ):ℚ) := by norm_num
    rw [harg, roundHalfEven_intCast]
    norm_num
  have hparse : parseDec (format_price_per_million (1/200)) = 1/200 := by
    rw [hfmt, parseDec_fmtFixed_nonneg _ (by norm_num) 4 (by norm_num), hrhe,
      Int.toNat_natCast]
    norm_num
  exact price_format_idempotent_within_band (1/200) (by norm_num) (by rw [hparse])

/-- C10: every negative price takes the highest-precision branch (4 decimal
places), the function is total there, and e.g. `-5` formats as `"-5.0000"`. -/
theorem price_format_negative (p : ℚ) (hp : p < 0) :
    format_price_per_million p = fmtFixed p 4 ∧
    digitsAfterPoint (format_price_per_million p) = some 4 ∧
    format_price_per_million (-5 : ℚ) = "-5.0000" := by
  have h : p < 0.01 := lt_trans hp (by norm_num)
  have hfmt : format_price_per_million p = fmtFixed p 4 := by
    rw [format_price_per_million, if_pos h]
  refine ⟨hfmt, ?_, ?_⟩
  · rw [hfmt]
    exact digitsAfterPoint_fmtFixed _ _ (by norm_num)
  · have h5 : roundHalfEven (-(-5:ℚ) * 10 ^ 4) = ((50000:ℕ):ℤ) := by
      have harg : (-(-5:ℚ)) * 10 ^ 4 = ((50000:ℤ):ℚ) := by norm_num
      rw [harg, roundHalfEven_intCast]
      norm_num
    rw [format_price_per_million, if_pos (by norm_num : (-5:ℚ) < 0.01)]
    rw [fmtFixed_eval_neg (-5) 4 50000 (by norm_num) h5]
    decide

/-- Witness for C10 at `p = -5`. -/
theorem price_format_negative_witness :
    format_price_per_million (-5 : ℚ) = fmtFixed (-5) 4 ∧
    digitsAfterPoint (format_price_per_million (-5 : ℚ)) = some 4 ∧
    format_price_per_million (-5 : ℚ) = "-5.0000" :=
  price_format_negative (-5) (by norm_num)

/-! ### UI toolkit model

The `ui`/`gpui` primitives used by `provider_ui.rs` (labels, `h_flex`,
`v_flex`, `div`, `ListItem`) are modelled as a small element tree.  Builder
methods mirror the Rust chains; click-handler closures are modelled as opaque
tokens, since only their identity can affect the produced tree. -/

abbrev ElementId := String

abbrev ClickHandler := ℕ

abbrev ThemeColor := ℕ

inductive LabelSize where
  | default
  | small
  | xsmall
  deriving DecidableEq

inductive Color where
  | default
  | muted
  deriving DecidableEq

structure Label where
  text : String
  size : LabelSize
  color : Color
  truncate : Bool
  deriving DecidableEq

def Label.new (text : String) : Label :=
  { text := text, size := .default, color := .default, truncate := false }

def Label.withSize (l : Label) (s : LabelSize) : Label := { l with size := s }

def Label.withColor (l : Label) (c : Color) : Label := { l with color := c }

def Label.truncated (l : Label) : Label := { l with truncate := true }

inductive StyleProp where
  | wFull
  | justifyBetween
  | justifyCenter
  | gap_1
  | gap_2
  | gap_3
  | gap_0p5
  | overflowHidden
  | flexShrink_0
  | flexOne
  | itemsEnd
  | px_2
  | pb_1
  | mt_1
  | h_px
  | p_4
  | bg (c : ThemeColor)
  deriving DecidableEq

inductive FlexDir where
  | horizontal
  | vertical
  deriving DecidableEq

inductive Elem where
  | label (l : Label)
  | flex (dir : FlexDir) (style : List StyleProp) (children : List Elem)
  | block (style : List StyleProp) (children : List Elem)

def Label.el (l : Label) : Elem := .label l

def h_flex : Elem := .flex .horizontal [] []

def v_flex : Elem := .flex .vertical [] []

def div : Elem := .block [] []

def Elem.addStyle : Elem → StyleProp → Elem
  | .flex d s cs, p => .flex d (s ++ [p]) cs
  | .block s cs, p => .block (s ++ [p]) cs
  | .label l, _ => .label l

def Elem.child : Elem → Elem → Elem
  | .flex d s cs, c => .flex d s (cs ++ [c])
  | .block s cs, c => .block s (cs ++ [c])
  | .label l, _ => .label l

def Elem.w_full (e : Elem) : Elem := e.addStyle .wFull

def Elem.justify_between (e : Elem) : Elem := e.addStyle .justifyBetween

def Elem.justify_center (e : Elem) : Elem := e.addStyle .justifyCenter

def Elem.gap_1 (e : Elem) : Elem := e.addStyle .gap_1

def Elem.gap_2 (e : Elem) : Elem := e.addStyle .gap_2

def Elem.gap_3 (e : Elem) : Elem := e.addStyle .gap_3

def Elem.gap_0p5 (e : Elem) : Elem := e.addStyle .gap_0p5

def Elem.overflow_hidden (e : Elem) : Elem := e.addStyle .overflowHidden

def Elem.flex_shrink_0 (e : Elem) : Elem := e.addStyle .flexShrink_0

def Elem.flex_1 (e : Elem) : Elem := e.addStyle .flexOne

def Elem.items_end (e : Elem) : Elem := e.addStyle .itemsEnd

def Elem.px_2 (e : Elem) : Elem := e.addStyle .px_2

def Elem.pb_1 (e : Elem) : Elem := e.addStyle .pb_1

def Elem.mt_1 (e : Elem) : Elem := e.addStyle .mt_1

def Elem.h_px (e : Elem) : Elem := e.addStyle .h_px

def Elem.p_4 (e : Elem) : Elem := e.addStyle .p_4

def Elem.bg (e : Elem) (c : ThemeColor) : Elem := e.addStyle (.bg c)

def Elem.when_some {α : Type} (e : Elem) (o : Option α) (f : Elem → α → Elem) : Elem :=
  match o with
  | some a => f e a
  | none => e

inductive ListItemSpacing where
  | dense
  | sparse
  deriving DecidableEq

structure ListItem where
  id : ElementId
  inset : Bool
  spacing : ListItemSpacing
  toggle_state : Bool
  on_click : Option ClickHandler
  children : List Elem

def ListItem.new (id : ElementId) : ListItem :=
  { id := id, inset := false, spacing := .dense, toggle_state := false,
    on_click := none, children := [] }

def ListItem.withInset (li : ListItem) (b : Bool) : ListItem := { li with inset := b }

def ListItem.withSpacing (li : ListItem) (s : ListItemSpacing) : ListItem :=
  { li with spacing := s }

def ListItem.withToggleState (li : ListItem) (b : Bool) : ListItem :=
  { li with toggle_state := b }

def ListItem.withOnClick (li : ListItem) (h : ClickHandler) : ListItem :=
  { li with on_click := some h }

def ListItem.withChild (li : ListItem) (c : Elem) : ListItem :=
  { li with children := li.children ++ [c] }

def ListItem.when_some {α : Type} (li : ListItem) (o : Option α)
    (f : ListItem → α → ListItem) : ListItem :=
  match o with
  | some a => f li a
  | none => li

structure ThemeColors where
  border : ThemeColor
  border_variant : ThemeColor

structure Theme where
  colors : ThemeColors

structure App where
  theme : Theme

structure Window where
  hostState : ℕ

/-- Modelled from the spec: `ModelProviderInfo` is defined elsewhere in the
`acp_thread` crate (not among the provided sources); per spec section 3 it has
a display name, an optional quantization text, optional throughput/latency
numbers and optional input/output prices per million tokens, consumed
read-only by the renderers. -/
structure ModelProviderInfo where
  display_name : String
  quantization : Option String
  throughput_tps : Option ℚ
  latency_ms : Option ℚ
  input_price_per_million : Option ℚ
  output_price_per_million : Option ℚ

/-! ### The components of `provider_ui.rs` -/

structure GenericProviderListItem where
  id : ElementId
  provider : ModelProviderInfo
  is_selected : Bool
  on_click : Option ClickHandler

def GenericProviderListItem.new (id : ElementId) (provider : ModelProviderInfo) :
    GenericProviderListItem :=
  { id := id, provider := provider, is_selected := false, on_click := none }

def GenericProviderListItem.selected (x : GenericProviderListItem)
    (selected : Bool) : GenericProviderListItem :=
  { x with is_selected := selected }

def GenericProviderListItem.withOnClick (x : GenericProviderListItem)
    (handler : ClickHandler) : GenericProviderListItem :=
  { x with on_click := some handler }

/-- The row content built inside `GenericProviderListItem::render`: the
left name/quantization column and the right metrics column. -/
def providerRow (p : ModelProviderInfo) : Elem :=
  let throughput := p.throughput_tps.getD 0
  let latency := p.latency_ms.getD 0
  let input_price := (p.input_price_per_million.map format_price_per_million).getD "N/A"
  let output_price := (p.output_price_per_million.map format_price_per_million).getD "N/A"
  h_flex
    |>.w_full
    |>.justify_between
    |>.gap_2
    |>.child
      (v_flex
        |>.overflow_hidden
        |>.child (Label.new p.display_name |>.withSize .small |>.truncated).el
        |>.when_some p.quantization (fun this q =>
            this.child (Label.new q |>.withSize .xsmall |>.withColor .muted).el))
    |>.child
      (h_flex
        |>.gap_3
        |>.flex_shrink_0
        |>.child
          (v_flex |>.items_end |>.gap_0p5 |>.child
            (h_flex
              |>.gap_1
              |>.child (Label.new (fmtFixed throughput 0) |>.withSize .xsmall).el
              |>.child (Label.new "tok/s" |>.withSize .xsmall |>.withColor .muted).el))
        |>.child
          (v_flex |>.items_end |>.gap_0p5 |>.child
            (h_flex
              |>.gap_1
              |>.child (Label.new (fmtFixed latency 0 ++ "ms") |>.withSize .xsmall).el))
        |>.child
          (v_flex
            |>.items_end
            |>.gap_0p5
            |>.child
              (h_flex
                |>.gap_0p5
                |>.child (Label.new "$" |>.withSize .xsmall).el
                |>.child (Label.new input_price |>.withSize .xsmall).el
                |>.child (Label.new "/M in" |>.withSize .xsmall |>.withColor .muted).el)
            |>.child
              (h_flex
                |>.gap_0p5
                |>.child (Label.new "$" |>.withSize .xsmall).el
                |>.child (Label.new output_price |>.withSize .xsmall).el
                |>.child (Label.new "/M out" |>.withSize .xsmall |>.withColor .muted).el)))

/-- `impl RenderOnce for GenericProviderListItem`, `fn render`. -/
def GenericProviderListItem.render (self : GenericProviderListItem)
    (_window : Window) (_cx : App) : ListItem :=
  ListItem.new self.id
    |>.withInset true
    |>.withSpacing .sparse
    |>.withToggleState self.is_selected
    |>.when_some self.on_click (fun this handler => this.withOnClick handler)
    |>.withChild (providerRow self.provider)

structure ProviderSelectorHeader

/-- `impl RenderOnce for ProviderSelectorHeader`, `fn render`. -/
def ProviderSelectorHeader.render (_self : ProviderSelectorHeader)
    (_window : Window) (cx : App) : Elem :=
  div
    |>.px_2
    |>.pb_1
    |>.child (Label.new "Select Provider" |>.withSize .small |>.withColor .muted).el
    |>.child
      (h_flex
        |>.w_full
        |>.justify_between
        |>.gap_2
        |>.mt_1
        |>.child
          (h_flex
            |>.flex_1
            |>.child (Label.new "Provider" |>.withSize .xsmall |>.withColor .muted).el)
        |>.child
          (h_flex
            |>.gap_3
            |>.child (Label.new "Speed" |>.withSize .xsmall |>.withColor .muted).el
            |>.child (Label.new "Latency" |>.withSize .xsmall |>.withColor .muted).el
            |>.child (Label.new "Price" |>.withSize .xsmall |>.withColor .muted).el))
    |>.child
      (div
        |>.mt_1
        |>.h_px
        |>.w_full
        |>.bg cx.theme.colors.border_variant)

structure ProviderSelectorLoading

/-- `impl RenderOnce for ProviderSelectorLoading`, `fn render`. -/
def ProviderSelectorLoading.render (_self : ProviderSelectorLoading)
    (_window : Window) (_cx : App) : Elem :=
  div
    |>.p_4
    |>.child
      (h_flex
        |>.justify_center
        |>.child (Label.new "Loading providers..." |>.withColor .muted).el)

/-! ### Projections into the rendered tree -/

def childrenOf : Elem → List Elem
  | .label _ => []
  | .flex _ _ cs => cs
  | .block _ cs => cs

def nthChild (e : Elem) (i : ℕ) : Option Elem := (childrenOf e)[i]?

def labelText : Elem → Option String
  | .label l => some l.text
  | _ => none

/-- Children of the left (name/quantization) column of a rendered row. -/
def leftColChildren (li : ListItem) : Option (List Elem) :=
  li.children[0]?.bind (fun row => (nthChild row 0).map childrenOf)

/-- The right (metrics) column of a rendered row. -/
def rightCol (li : ListItem) : Option Elem :=
  li.children[0]?.bind (fun row => nthChild row 1)

def throughputText (li : ListItem) : Option String :=
  (rightCol li).bind fun rc => (nthChild rc 0).bind fun g =>
    (nthChild g 0).bind fun row => (nthChild row 0).bind labelText

def throughputSuffix (li : ListItem) : Option String :=
  (rightCol li).bind fun rc => (nthChild rc 0).bind fun g =>
    (nthChild g 0).bind fun row => (nthChild row 1).bind labelText

def latencyText (li : ListItem) : Option String :=
  (rightCol li).bind fun rc => (nthChild rc 1).bind fun g =>
    (nthChild g 0).bind fun row => (nthChild row 0).bind labelText

def inputPriceRow (li : ListItem) : Option Elem :=
  (rightCol li).bind fun rc => (nthChild rc 2).bind fun g => nthChild g 0

def outputPriceRow (li : ListItem) : Option Elem :=
  (rightCol li).bind fun rc => (nthChild rc 2).bind fun g => nthChild g 1

def inputDollarText (li : ListItem) : Option String :=
  (inputPriceRow li).bind fun r => (nthChild r 0).bind labelText

def inputPriceText (li : ListItem) : Option String :=
  (inputPriceRow li).bind fun r => (nthChild r 1).bind labelText

def inputSuffixText (li : ListItem) : Option String :=
  (inputPriceRow li).bind fun r => (nthChild r 2).bind labelText

def outputDollarText (li : ListItem) : Option String :=
  (outputPriceRow li).bind fun r => (nthChild r 0).bind labelText

def outputPriceText (li : ListItem) : Option String :=
  (outputPriceRow li).bind fun r => (nthChild r 1).bind labelText

def outputSuffixText (li : ListItem) : Option String :=
  (outputPriceRow li).bind fun r => (nthChild r 2).bind labelText

/-- The name label of the left column. -/
def nameLabelElem (p : ModelProviderInfo) : Elem :=
  (Label.new p.display_name |>.withSize .small |>.truncated).el

/-- The muted quantization sub-label. -/
def quantLabelElem (q : String) : Elem :=
  (Label.new q |>.withSize .xsmall |>.withColor .muted).el

attribute [simp] Elem.addStyle Elem.child Elem.when_some Elem.w_full
  Elem.justify_between Elem.justify_center Elem.gap_1 Elem.gap_2 Elem.gap_3
  Elem.gap_0p5 Elem.overflow_hidden Elem.flex_shrink_0 Elem.flex_1
  Elem.items_end Elem.px_2 Elem.pb_1 Elem.mt_1 Elem.h_px Elem.p_4 Elem.bg
  Label.new Label.withSize Label.withColor Label.truncated Label.el
  h_flex v_flex div childrenOf nthChild labelText

/-! ### Normal form of the rendered list item -/

theorem render_eq (x : GenericProviderListItem) (w : Window) (cx : App) :
    x.render w cx =
      { id := x.id, inset := true, spacing := .sparse,
        toggle_state := x.is_selected, on_click := x.on_click,
        children := [providerRow x.provider] } := by
  cases hx : x.on_click <;>
    simp [GenericProviderListItem.render, ListItem.new, ListItem.withInset,
      ListItem.withSpacing, ListItem.withToggleState, ListItem.withOnClick,
      ListItem.withChild, ListItem.when_some, hx]

theorem leftColChildren_render (x : GenericProviderListItem) (w : Window) (cx : App) :
    leftColChildren (x.render w cx) =
      some (nameLabelElem x.provider ::
        (x.provider.quantization.map quantLabelElem).toList) := by
  rw [render_eq]
  cases hq : x.provider.quantization <;>
    simp [leftColChildren, providerRow, nameLabelElem, quantLabelElem, hq]

theorem throughputText_render (x : GenericProviderListItem) (w : Window) (cx : App) :
    throughputText (x.render w cx) =
      some (fmtFixed (x.provider.throughput_tps.getD 0) 0) := by
  rw [render_eq]
  cases hq : x.provider.quantization <;>
    simp [throughputText, rightCol, providerRow, hq]

theorem throughputSuffix_render (x : GenericProviderListItem) (w : Window) (cx : App) :
    throughputSuffix (x.render w cx) = some "tok/s" := by
  rw [render_eq]
  cases hq : x.provider.quantization <;>
    simp [throughputSuffix, rightCol, providerRow, hq]

theorem latencyText_render (x : GenericProviderListItem) (w : Window) (cx : App) :
    latencyText (x.render w cx) =
      some (fmtFixed (x.provider.latency_ms.getD 0) 0 ++ "ms") := by
  rw [render_eq]
  cases hq : x.provider.quantization <;>
    simp [latencyText, rightCol, providerRow, hq]

theorem inputDollarText_render (x : GenericProviderListItem) (w : Window) (cx : App) :
    inputDollarText (x.render w cx) = some "$" := by
  rw [render_eq]
  cases hq : x.provider.quantization <;>
    simp [inputDollarText, inputPriceRow, rightCol, providerRow, hq]

theorem inputPriceText_render (x : GenericProviderListItem) (w : Window) (cx : App) :
    inputPriceText (x.render w cx) =
      some ((x.provider.input_price_per_million.map format_price_per_million).getD "N/A") := by
  rw [render_eq]
  cases hq : x.provider.quantization <;>
    simp [inputPriceText, inputPriceRow, rightCol, providerRow, hq]

theorem inputSuffixText_render (x : GenericProviderListItem) (w : Window) (cx : App) :
    inputSuffixText (x.render w cx) = some "/M in" := by
  rw [render_eq]
  cases hq : x.provider.quantization <;>
    simp [inputSuffixText, inputPriceRow, rightCol, providerRow, hq]

theorem outputDollarText_render (x : GenericProviderListItem) (w : Window) (cx : App) :
    outputDollarText (x.render w cx) = some "$" := by
  rw [render_eq]
  cases hq : x.provider.quantization <;>
    simp [outputDollarText, outputPriceRow, rightCol, providerRow, hq]

theorem outputPriceText_render (x : GenericProviderListItem) (w : Window) (cx : App) :
    outputPriceText (x.render w cx) =
      some ((x.provider.output_price_per_million.map format_price_per_million).getD "N/A") := by
  rw [render_eq]
  cases hq : x.provider.quantization <;>
    simp [outputPriceText, outputPriceRow, rightCol, providerRow, hq]

theorem outputSuffixText_render (x : GenericProviderListItem) (w : Window) (cx : App) :
    outputSuffixText (x.render w cx) = some "/M out" := by
  rw [render_eq]
  cases hq : x.provider.quantization <;>
    simp [outputSuffixText, outputPriceRow, rightCol, providerRow, hq]

/-! ### Concrete formatting evaluations -/

theorem fmtFixed_zero_prec_zero : fmtFixed (0:ℚ) 0 = "0" := by
  have h : roundHalfEven ((0:ℚ) * 10 ^ 0) = ((0:ℕ):ℤ) := by
    have harg : (0:ℚ) * 10 ^ 0 = ((0:ℤ):ℚ) := by norm_num
    rw [harg, roundHalfEven_intCast]
    norm_num
  rw [fmtFixed_eval_nonneg 0 0 0 (by norm_num) h]
  decide

theorem fmtFixed_throughput_example : fmtFixed (427/10 : ℚ) 0 = "43" := by
  have hfl : ⌊(427/10 : ℚ)⌋ = 42 := by
    rw [Int.floor_eq_iff]
    push_cast
    norm_num
  have h : roundHalfEven ((427/10:ℚ) * 10 ^ 0) = ((43:ℕ):ℤ) := by
    have harg : (427/10:ℚ) * 10 ^ 0 = 427/10 := by norm_num
    rw [harg, rhe_of_floor_gt (427/10) 42 hfl (by push_cast; norm_num)]
    norm_num
  rw [fmtFixed_eval_nonneg (427/10) 0 43 (by norm_num) h]
  decide

theorem fmtFixed_latency_example : fmtFixed (3102/10 : ℚ) 0 = "310" := by
  have hfl : ⌊(3102/10 : ℚ)⌋ = 310 := by
    rw [Int.floor_eq_iff]
    push_cast
    norm_num
  have h : roundHalfEven ((3102/10:ℚ) * 10 ^ 0) = ((310:ℕ):ℤ) := by
    have harg : (3102/10:ℚ) * 10 ^ 0 = 3102/10 := by norm_num
    rw [harg, rhe_of_floor_lt (3102/10) 310 hfl (by push_cast; norm_num)]
    norm_num
  rw [fmtFixed_eval_nonneg (3102/10) 0 310 (by norm_num) h]
  decide

theorem fmtFixed_tie_even_42 : fmtFixed (85/2 : ℚ) 0 = "42" := by
  have hfl : ⌊(85/2 : ℚ)⌋ = 42 := by
    rw [Int.floor_eq_iff]
    push_cast
    norm_num
  have h : roundHalfEven ((85/2:ℚ) * 10 ^ 0) = ((42:ℕ):ℤ) := by
    have harg : (85/2:ℚ) * 10 ^ 0 = 85/2 := by norm_num
    rw [harg, rhe_of_tie_even (85/2) 42 hfl (by push_cast; norm_num) (by decide)]
    norm_num
  rw [fmtFixed_eval_nonneg (85/2) 0 42 (by norm_num) h]
  decide

theorem format_price_example_input : format_price_per_million (1/200 : ℚ) = "0.0050" := by
  rw [format_price_per_million, if_pos (by norm_num : (1/200:ℚ) < 0.01)]
  have h : roundHalfEven ((1/200:ℚ) * 10 ^ 4) = ((50:ℕ):ℤ) := by
    have harg : (1/200:ℚ) * 10 ^ 4 = ((50:ℤ):ℚ) := by norm_num
    rw [harg, roundHalfEven_intCast]
    norm_num
  rw [fmtFixed_eval_nonneg (1/200) 4 50 (by norm_num) h]
  decide

theorem format_price_example_output : format_price_per_million (5/2 : ℚ) = "2.5" := by
  rw [format_price_per_million, if_neg (by norm_num : ¬ (5/2:ℚ) < 0.01),
    if_neg (by norm_num : ¬ (5/2:ℚ) < 1.0)]
  have h : roundHalfEven ((5/2:ℚ) * 10 ^ 1) = ((25:ℕ):ℤ) := by
    have harg : (5/2:ℚ) * 10 ^ 1 = ((25:ℤ):ℚ) := by norm_num
    rw [harg, roundHalfEven_intCast]
    norm_num
  rw [fmtFixed_eval_nonneg (5/2) 1 25 (by norm_num) h]
  decide

/-! ### Parsed-back value of zero-precision formatting -/

theorem fmtFixed_zero_data_nonneg (q : ℚ) (hq : ¬ q < 0) :
    (fmtFixed q 0).data = natDigitChars (roundHalfEven q).toNat := by
  rw [fmtFixed_data, if_neg hq, if_neg hq, if_pos rfl]
  simp

theorem fmtFixed_zero_data_neg (q : ℚ) (hq : q < 0) :
    (fmtFixed q 0).data = '-' :: natDigitChars (roundHalfEven (-q)).toNat := by
  rw [fmtFixed_data, if_pos hq, if_pos hq, if_pos rfl]
  simp

theorem parseDec_natDigitChars (M : ℕ) :
    parseDecCore (natDigitChars M) = (M : ℚ) := by
  rw [parseDecCore_no_dot _ (fun c hc => (natDigitChars_mem _ c hc).1),
    parseNatChars_natDigitChars]

theorem parseDec_fmtFixed_zero (q : ℚ) :
    |parseDec (fmtFixed q 0) - q| ≤ 1/2 := by
  by_cases hq : q < 0
  · have hdata := fmtFixed_zero_data_neg q hq
    have hval : parseDec (fmtFixed q 0) = -(((roundHalfEven (-q)).toNat : ℕ) : ℚ) := by
      rw [parseDec, hdata]
      simp [parseDec_natDigitChars]
    have hnn : 0 ≤ roundHalfEven (-q) :=
      roundHalfEven_nonneg _ (by linarith)
    have hcast : (((roundHalfEven (-q)).toNat : ℕ) : ℚ) = ((roundHalfEven (-q) : ℤ) : ℚ) := by
      exact_mod_cast congrArg (fun z : ℤ => z) (Int.toNat_of_nonneg hnn)
    rw [hval, hcast]
    have h := abs_roundHalfEven_sub_le (-q)
    calc |(-((roundHalfEven (-q) : ℤ) : ℚ)) - q|
        = |((roundHalfEven (-q) : ℤ) : ℚ) - (-q)| := by
          rw [← abs_neg]
          ring_nf
      _ ≤ 1/2 := h
  · have hdata := fmtFixed_zero_data_nonneg q hq
    have hhead : (fmtFixed q 0).data.head? ≠ some '-' := by
      obtain ⟨c, cs, hcons⟩ := List.exists_cons_of_ne_nil
        (natDigitChars_ne_nil (roundHalfEven q).toNat)
      have hcmem : c ∈ natDigitChars (roundHalfEven q).toNat := by
        rw [hcons]; exact List.mem_cons_self c cs
      rw [hdata, hcons]
      simpa using (natDigitChars_mem _ c hcmem).2
    have hval : parseDec (fmtFixed q 0) = (((roundHalfEven q).toNat : ℕ) : ℚ) := by
      rw [parseDec, if_neg hhead, hdata, parseDec_natDigitChars]
    have hnn : 0 ≤ roundHalfEven q :=
      roundHalfEven_nonneg _ (not_lt.1 hq)
    have hcast : (((roundHalfEven q).toNat : ℕ) : ℚ) = ((roundHalfEven q : ℤ) : ℚ) := by
      exact_mod_cast congrArg (fun z : ℤ => z) (Int.toNat_of_nonneg hnn)
    rw [hval, hcast]
    exact abs_roundHalfEven_sub_le q

/-! ### Sample inputs -/

def sampleProviderNone : ModelProviderInfo :=
  { display_name := "SampleAI", quantization := none, throughput_tps := none,
    latency_ms := none, input_price_per_million := none,
    output_price_per_million := none }

def sampleItem : GenericProviderListItem :=
  GenericProviderListItem.new "sample" sampleProviderNone

def exampleProvider : ModelProviderInfo :=
  { display_name := "ExampleAI", quantization := some "fp8",
    throughput_tps := some (427/10), latency_ms := some (3102/10),
    input_price_per_million := some (1/200),
    output_price_per_million := some (5/2) }

def exampleItem : GenericProviderListItem :=
  GenericProviderListItem.new "example" exampleProvider

def w0 : Window := ⟨0⟩

def wAlt : Window := ⟨1⟩

def cxA : App := ⟨⟨⟨5, 7⟩⟩⟩

def cxB : App := ⟨⟨⟨6, 7⟩⟩⟩

/-! ### Claims about the render components -/

/-- C3: for every provider record, an absent `input_price_per_million`
renders the input-price text as the literal `"N/A"`, and an absent
`output_price_per_million` renders the output-price text as `"N/A"`,
regardless of every other field. -/
theorem missing_price_renders_na (x : GenericProviderListItem)
    (w : Window) (cx : App) :
    (x.provider.input_price_per_million = none →
      inputPriceText (x.render w cx) = some "N/A") ∧
    (x.provider.output_price_per_million = none →
      outputPriceText (x.render w cx) = some "N/A") := by
  constructor
  · intro h
    rw [inputPriceText_render, h]
    rfl
  · intro h
    rw [outputPriceText_render, h]
    rfl

/-- Witness for C3 on a record with both prices absent. -/
theorem missing_price_renders_na_witness :
    inputPriceText (sampleItem.render w0 cxA) = some "N/A" ∧
    outputPriceText (sampleItem.render w0 cxA) = some "N/A" :=
  ⟨(missing_price_renders_na sampleItem w0 cxA).1 rfl,
   (missing_price_renders_na sampleItem w0 cxA).2 rfl⟩

/-- C4: an absent `throughput_tps` renders the throughput text `"0"` with
suffix label `"tok/s"`, and an absent `latency_ms` renders the latency
text `"0ms"`. -/
theorem missing_metrics_render_zero (x : GenericProviderListItem)
    (w : Window) (cx : App) :
    (x.provider.throughput_tps = none →
      throughputText (x.render w cx) = some "0" ∧
      throughputSuffix (x.render w cx) = some "tok/s") ∧
    (x.provider.latency_ms = none →
      latencyText (x.render w cx) = some "0ms") := by
  constructor
  · intro h
    refine ⟨?_, throughputSuffix_render x w cx⟩
    rw [throughputText_render, h]
    simp [fmtFixed_zero_prec_zero]
  · intro h
    rw [latencyText_render, h]
    simp only [Option.getD_none, fmtFixed_zero_prec_zero]
    decide

/-- Witness for C4 on a record with both metrics absent. -/
theorem missing_metrics_render_zero_witness :
    (throughputText (sampleItem.render w0 cxA) = some "0" ∧
      throughputSuffix (sampleItem.render w0 cxA) = some "tok/s") ∧
    latencyText (sampleItem.render w0 cxA) = some "0ms" :=
  ⟨(missing_metrics_render_zero sampleItem w0 cxA).1 rfl,
   (missing_metrics_render_zero sampleItem w0 cxA).2 rfl⟩

/-- C5: with `throughput_tps = some t` and `latency_ms = some l`, the
throughput text is `t` formatted at precision 0 with suffix `"tok/s"` and
the latency text is `l` at precision 0 followed by `"ms"`; precision-0
formatting displays an integer at distance at most `1/2` from the value
(round to nearest), and the half-way value `42.5` rounds to even: `"42"`. -/
theorem metrics_rounded_to_nearest (x : GenericProviderListItem)
    (w : Window) (cx : App) (t l : ℚ)
    (ht : x.provider.throughput_tps = some t)
    (hl : x.provider.latency_ms = some l) :
    throughputText (x.render w cx) = some (fmtFixed t 0) ∧
    throughputSuffix (x.render w cx) = some "tok/s" ∧
    latencyText (x.render w cx) = some (fmtFixed l 0 ++ "ms") ∧
    |parseDec (fmtFixed t 0) - t| ≤ 1/2 ∧
    |parseDec (fmtFixed l 0) - l| ≤ 1/2 ∧
    fmtFixed (85/2 : ℚ) 0 = "42" := by
  refine ⟨?_, throughputSuffix_render x w cx, ?_, parseDec_fmtFixed_zero t,
    parseDec_fmtFixed_zero l, fmtFixed_tie_even_42⟩
  · rw [throughputText_render, ht]
    rfl
  · rw [latencyText_render, hl]
    rfl

/-- Witness for C5 at `t = 42.7`, `l = 310.2`. -/
theorem metrics_rounded_to_nearest_witness :
    throughputText (exampleItem.render w0 cxA) = some (fmtFixed (427/10) 0) ∧
    throughputSuffix (exampleItem.render w0 cxA) = some "tok/s" ∧
    latencyText (exampleItem.render w0 cxA) = some (fmtFixed (3102/10) 0 ++ "ms") ∧
    |parseDec (fmtFixed (427/10 : ℚ) 0) - 427/10| ≤ 1/2 ∧
    |parseDec (fmtFixed (3102/10 : ℚ) 0) - 3102/10| ≤ 1/2 ∧
    fmtFixed (85/2 : ℚ) 0 = "42" :=
  metrics_rounded_to_nearest exampleItem w0 cxA (427/10) (3102/10) rfl rfl

/-- C6: the record with `throughput_tps = 42.7`, `latency_ms = 310.2`,
`input_price_per_million = 0.005`, `output_price_per_million = 2.5`
displays `"43 tok/s"`, `"310ms"`, `"$0.0050/M in"`, `"$2.5/M out"`; the
record with all four metric fields absent displays `"0 tok/s"`, `"0ms"`,
`"$N/A/M in"`, `"$N/A/M out"`. -/
theorem example_record_display :
    throughputText (exampleItem.render w0 cxA) = some "43" ∧
    throughputSuffix (exampleItem.render w0 cxA) = some "tok/s" ∧
    latencyText (exampleItem.render w0 cxA) = some "310ms" ∧
    inputDollarText (exampleItem.render w0 cxA) = some "$" ∧
    inputPriceText (exampleItem.render w0 cxA) = some "0.0050" ∧
    inputSuffixText (exampleItem.render w0 cxA) = some "/M in" ∧
    outputDollarText (exampleItem.render w0 cxA) = some "$" ∧
    outputPriceText (exampleItem.render w0 cxA) = some "2.5" ∧
    outputSuffixText (exampleItem.render w0 cxA) = some "/M out" ∧
    throughputText (sampleItem.render w0 cxA) = some "0" ∧
    throughputSuffix (sampleItem.render w0 cxA) = some "tok/s" ∧
    latencyText (sampleItem.render w0 cxA) = some "0ms" ∧
    inputPriceText (sampleItem.render w0 cxA) = some "N/A" ∧
    outputPriceText (sampleItem.render w0 cxA) = some "N/A" := by
  refine ⟨?_, throughputSuffix_render _ _ _, ?_, inputDollarText_render _ _ _,
    ?_, inputSuffixText_render _ _ _, outputDollarText_render _ _ _, ?_,
    outputSuffixText_render _ _ _, ?_, throughputSuffix_render _ _ _, ?_, ?_, ?_⟩
  · rw [throughputText_render]
    show some (fmtFixed (427/10 : ℚ) 0) = some "43"
    rw [fmtFixed_throughput_example]
  · rw [latencyText_render]
    show some (fmtFixed (3102/10 : ℚ) 0 ++ "ms") = some "310ms"
    rw [fmtFixed_latency_example]
    rfl
  · rw [inputPriceText_render]
    show some (format_price_per_million (1/200 : ℚ)) = some "0.0050"
    rw [format_price_example_input]
  · rw [outputPriceText_render]
    show some (format_price_per_million (5/2 : ℚ)) = some "2.5"
    rw [format_price_example_output]
  · rw [throughputText_render]
    show some (fmtFixed (0 : ℚ) 0) = some "0"
    rw [fmtFixed_zero_prec_zero]
  · rw [latencyText_render]
    show some (fmtFixed (0 : ℚ) 0 ++ "ms") = some "0ms"
    rw [fmtFixed_zero_prec_zero]
    rfl
  · rw [inputPriceText_render]
    rfl
  · rw [outputPriceText_render]
    rfl

/-- C7: the left column contains the name label, followed by a muted
quantization sub-label exactly when `quantization = some q`; when it is
`none`, no sub-label element exists at all. -/
theorem quantization_sublabel (x : GenericProviderListItem)
    (w : Window) (cx : App) :
    leftColChildren (x.render w cx) =
      some (nameLabelElem x.provider ::
        (x.provider.quantization.map quantLabelElem).toList) :=
  leftColChildren_render x w cx

/-- C8: `selected b` sets only the `is_selected` flag, leaving `id`,
`provider` and `on_click` unchanged, and the rendered trees for any two
selection flags differ only in the row's toggle state. -/
theorem selected_changes_only_toggle (x : GenericProviderListItem)
    (b b' : Bool) (w : Window) (cx : App) :
    (x.selected b).is_selected = b ∧
    (x.selected b).id = x.id ∧
    (x.selected b).provider = x.provider ∧
    (x.selected b).on_click = x.on_click ∧
    (x.selected b).render w cx =
      { (x.selected b').render w cx with toggle_state := b } := by
  refine ⟨rfl, rfl, rfl, rfl, ?_⟩
  rw [render_eq, render_eq]
  simp [GenericProviderListItem.selected]

/-- C9: rendering is deterministic and depends only on the component's
inputs and, for the header's divider color, the theme's
`border_variant`: contexts agreeing on `border_variant` (and arbitrary
windows) produce identical trees for all three components. -/
theorem render_pure (x : GenericProviderListItem) (wa wb : Window)
    (ca cb : App)
    (h : ca.theme.colors.border_variant = cb.theme.colors.border_variant) :
    x.render wa ca = x.render wb cb ∧
    ProviderSelectorHeader.render ⟨⟩ wa ca = ProviderSelectorHeader.render ⟨⟩ wb cb ∧
    ProviderSelectorLoading.render ⟨⟩ wa ca = ProviderSelectorLoading.render ⟨⟩ wb cb := by
  refine ⟨rfl, ?_, rfl⟩
  unfold ProviderSelectorHeader.render
  rw [h]

/-- Witness for C9: different windows and different themes that agree on
`border_variant` render identically. -/
theorem render_pure_witness :
    sampleItem.render w0 cxA = sampleItem.render wAlt cxB ∧
    ProviderSelectorHeader.render ⟨⟩ w0 cxA = ProviderSelectorHeader.render ⟨⟩ wAlt cxB ∧
    ProviderSelectorLoading.render ⟨⟩ w0 cxA = ProviderSelectorLoading.render ⟨⟩ wAlt cxB :=
  render_pure sampleItem w0 wAlt cxA cxB rfl
